import Mathlib

/-!
Shallow embedding of the markdown-rendering pipeline of `src/js/blog.js`
(`parseMarkdown`, `escapeHtml`, and the per-language syntax highlighters
`highlightCppLike`, `highlightPython`, `highlightJavaScript`).

Strings are modelled as `List Char`.  Each JavaScript
`String.prototype.replace` call with a global regex is modelled by a
left-to-right scan that, at every position, attempts the match exactly as the
backtracking regex engine would (greedy / lazy quantifiers, word boundaries,
the `m` flag's per-line anchoring, the dot's exclusion of line terminators),
emits the replacement on success, continues after the match, and otherwise
advances one character.  Scans whose recursion is not structural on the text
carry a fuel argument; every step consumes at least one character of input, so
`fuel = length of the input` always suffices and the fueled function computes
the exact replace semantics.
-/

namespace Blog

/-- The backquote character (code 96). -/
def backquote : Char := Char.ofNat 96

/-- The single-quote character (code 39). -/
def singlequote : Char := Char.ofNat 39

/-- The double-quote character (code 34). -/
def doublequote : Char := Char.ofNat 34

/-- JavaScript's `\w` class: `[A-Za-z0-9_]`. -/
def isWordChar (c : Char) : Bool :=
  (('A' ≤ c && c ≤ 'Z') || ('a' ≤ c && c ≤ 'z') || ('0' ≤ c && c ≤ '9') || c = '_')

/-- What JavaScript's `.` matches (without the `s` flag): any character that
is not a line terminator (`\n`, `\r`, U+2028, U+2029). -/
def isDotChar (c : Char) : Bool :=
  !(c = '\n' || c = '\r' || c = Char.ofNat 0x2028 || c = Char.ofNat 0x2029)

/-- JavaScript whitespace (`\s`, and what `String.prototype.trim` strips):
space, tab, line terminators, form/vertical feed, NBSP, and the Unicode
space separators. -/
def isJsSpace (c : Char) : Bool :=
  (c = ' ' || c = '\t' || c = '\n' || c = '\r' ||
   c = Char.ofNat 0x0b || c = Char.ofNat 0x0c ||
   c = Char.ofNat 0xa0 || c = Char.ofNat 0x1680 ||
   (Char.ofNat 0x2000 ≤ c && c ≤ Char.ofNat 0x200a) ||
   c = Char.ofNat 0x2028 || c = Char.ofNat 0x2029 ||
   c = Char.ofNat 0x202f || c = Char.ofNat 0x205f ||
   c = Char.ofNat 0x3000 || c = Char.ofNat 0xfeff)

/-- `String.prototype.trim`: strip JavaScript whitespace from both ends. -/
def jsTrim (s : List Char) : List Char :=
  ((s.dropWhile isJsSpace).reverse.dropWhile isJsSpace).reverse

/-- `escapeHtml` (blog.js:208-219): `text.replace(/[&<>"']/g, ...)` mapping
each of the five HTML-significant characters to its entity. -/
def escapeHtml : List Char → List Char
  | [] => []
  | c :: rest =>
    (if c = '&' then "&amp;".data
     else if c = '<' then "&lt;".data
     else if c = '>' then "&gt;".data
     else if c = doublequote then "&quot;".data
     else if c = singlequote then "&#39;".data
     else [c]) ++ escapeHtml rest

/-- Rejoin with `'\n'` (JavaScript `.join('\n')`). -/
def joinNl (ls : List (List Char)) : List Char := List.intercalate ['\n'] ls

/-- Scan for `mapLines`: a line is a maximal run of `.`-matching characters
(under the `m` flag, `^` matches at the start and immediately after every
line terminator, and `$` immediately before every line terminator and at the
end); `f` rewrites each line and the terminator characters pass through. -/
def mapLinesGo (f : List Char → List Char) : Nat → List Char → List Char
  | 0, s => f s
  | fuel + 1, s =>
    match s.drop (s.takeWhile isDotChar).length with
    | [] => f (s.takeWhile isDotChar)
    | t :: rest2 => f (s.takeWhile isDotChar) ++ t :: mapLinesGo f fuel rest2

/-- Apply a line-anchored rewrite to every line of the text. -/
def mapLines (f : List Char → List Char) (s : List Char) : List Char :=
  mapLinesGo f (s.length + 1) s

/-- Number of positions at which `pat` occurs in `s` (a nonempty pattern). -/
def countOcc (pat : List Char) : List Char → Nat
  | [] => 0
  | c :: rest => (if pat.isPrefixOf (c :: rest) then 1 else 0) + countOcc pat rest

/-- First match of the lazy `[\s\S]*?` followed by the literal `delim`:
returns the (shortest) skipped text and the remainder after `delim`. -/
def lazyClose (delim : List Char) : List Char → Option (List Char × List Char)
  | [] => if delim.isPrefixOf ([] : List Char) then some ([], []) else none
  | c :: rest =>
    if delim.isPrefixOf (c :: rest) then some ([], (c :: rest).drop delim.length)
    else (lazyClose delim rest).map fun p => (c :: p.1, p.2)

/-- First match of the lazy `(.+?)` followed by the literal `delim`: at least
one `.`-matching character, extended lazily until `delim` follows. -/
def lazyDotClose (delim : List Char) : List Char → Option (List Char × List Char)
  | [] => none
  | c :: rest =>
    if isDotChar c then
      if delim.isPrefixOf rest then some ([c], rest.drop delim.length)
      else (lazyDotClose delim rest).map fun p => (c :: p.1, p.2)
    else none

/-- `parseMarkdown` step 0 (blog.js:131): `html.replace(/\r\n/g, '\n')` —
left-to-right, non-overlapping replacement of CRLF pairs. -/
def normalizeNewlines : List Char → List Char
  | [] => []
  | [c] => [c]
  | c1 :: c2 :: rest =>
    if c1 = '\r' && c2 = '\n' then '\n' :: normalizeNewlines rest
    else c1 :: normalizeNewlines (c2 :: rest)

/-- One extracted fenced code block (blog.js:138): the captured language tag
and the already-trimmed-and-escaped code text. -/
structure CodeBlockRecord where
  language : List Char
  code : List Char
  deriving Repr, DecidableEq

/-- The placeholder the extractor substitutes for block `i` (blog.js:139). -/
def placeholderFor (i : Nat) : List Char :=
  "__CODE_BLOCK_".data ++ (Nat.repr i).data ++ "__".data

/-- Attempt of the fence regex `` ```(\w*)\n([\s\S]*?)``` `` at the current
position: the literal fence, the greedy run of word characters (which must be
followed by a newline, as `\w` cannot match one), and the lazily-extended
body up to the first closing fence.  Returns the captured language tag, the
raw body, and the remainder after the closing fence. -/
def fenceMatchAt (s : List Char) : Option (List Char × List Char × List Char) :=
  if "```".data.isPrefixOf s then
    let afterFence := s.drop 3
    let lang := afterFence.takeWhile isWordChar
    match afterFence.drop lang.length with
    | nl :: body =>
      if nl = '\n' then
        (lazyClose "```".data body).map fun p => (lang, p.1, p.2)
      else none
    | [] => none
  else none

/-- Scan for `parseMarkdown` step 1 (blog.js:136-140):
`html.replace(/```(\w*)\n([\s\S]*?)```/g, cb)` where the callback pushes
`{language, code: escapeHtml(code.trim())}` and returns the placeholder.
`i` is `codeBlocks.length` at the time of the match. -/
def extractGo : Nat → Nat → List Char → List Char × List CodeBlockRecord
  | 0, _, s => (s, [])
  | _ + 1, _, [] => ([], [])
  | fuel + 1, i, c :: rest =>
    match fenceMatchAt (c :: rest) with
    | some (lang, code, rest2) =>
      let p := extractGo fuel (i + 1) rest2
      (placeholderFor i ++ p.1, ⟨lang, escapeHtml (jsTrim code)⟩ :: p.2)
    | none =>
      let p := extractGo fuel i rest
      (c :: p.1, p.2)

/-- Step 1 entry point: extraction starts with an empty `codeBlocks` array. -/
def extractCodeBlocks (s : List Char) : List Char × List CodeBlockRecord :=
  extractGo s.length 0 s

/-- A whole-line-anchored rule `^MARKER (.+)$` under the `gm` flags, applied
to a single line: fires iff the line starts with the marker and the remainder
is a nonempty run of `.`-matching characters; the replacement keeps the
captured remainder between the two tags. -/
def anchoredLineRule (marker openT closeT line : List Char) : List Char :=
  if marker.isPrefixOf line then
    if !(line.drop marker.length).isEmpty && (line.drop marker.length).all isDotChar then
      openT ++ line.drop marker.length ++ closeT
    else line
  else line

/-- Heading marker for level `k`: `k` hash signs and a space (blog.js:147-152). -/
def hMarker (k : Nat) : List Char := List.replicate k '#' ++ [' ']

/-- Opening tag `<hk>`. -/
def hOpen (k : Nat) : List Char := "<h".data ++ (Nat.repr k).data ++ ">".data

/-- Closing tag `</hk>`. -/
def hClose (k : Nat) : List Char := "</h".data ++ (Nat.repr k).data ++ ">".data

/-- The level-`k` heading replace `html.replace(/^#..# (.+)$/gm, '<hk>$1</hk>')`. -/
def hPass (k : Nat) (s : List Char) : List Char :=
  mapLines (anchoredLineRule (hMarker k) (hOpen k) (hClose k)) s

/-- `parseMarkdown` step 3 (blog.js:147-152): the six heading replaces,
six markers first down to one. -/
def headingsStage (s : List Char) : List Char :=
  hPass 1 (hPass 2 (hPass 3 (hPass 4 (hPass 5 (hPass 6 s)))))

/-- Scan for the emphasis-style replaces `DELIM(.+?)DELIM` (blog.js:156-160):
at each position, match the opening delimiter, the lazy one-or-more dot
characters, and the closing delimiter; wrap the content in the given tags. -/
def delimScan (delim openT closeT : List Char) : Nat → List Char → List Char
  | 0, s => s
  | _ + 1, [] => []
  | fuel + 1, c :: rest =>
    let s := c :: rest
    if delim.isPrefixOf s then
      match lazyDotClose delim (s.drop delim.length) with
      | some (content, rest2) =>
        openT ++ content ++ closeT ++ delimScan delim openT closeT fuel rest2
      | none => c :: delimScan delim openT closeT fuel rest
    else c :: delimScan delim openT closeT fuel rest

/-- `parseMarkdown` step 5 (blog.js:163): `` html.replace(/`([^`]+)`/g,
'<code>$1</code>') ``.  `[^`]+` is a greedy run of non-backquote characters
(newlines included) that must be followed by the closing backquote. -/
def inlineCodeScan : Nat → List Char → List Char
  | 0, s => s
  | _ + 1, [] => []
  | fuel + 1, c :: rest =>
    if c = backquote then
      let run := rest.takeWhile (fun d => !(d = backquote))
      match rest.drop run.length with
      | d :: rest2 =>
        if !run.isEmpty && d = backquote then
          "<code>".data ++ run ++ "</code>".data ++ inlineCodeScan fuel rest2
        else c :: inlineCodeScan fuel rest
      | [] => c :: inlineCodeScan fuel rest
    else c :: inlineCodeScan fuel rest

/-- `parseMarkdown` step 6 (blog.js:166):
`html.replace(/\[([^\]]+)\]\(([^)]+)\)/g, '<a href="$2">$1</a>')`. -/
def linkScan : Nat → List Char → List Char
  | 0, s => s
  | _ + 1, [] => []
  | fuel + 1, c :: rest =>
    if c = '[' then
      let txt := rest.takeWhile (fun d => !(d = ']'))
      match rest.drop txt.length with
      | d :: rest2 =>
        if !txt.isEmpty && d = ']' then
          match rest2 with
          | e :: rest3 =>
            if e = '(' then
              let url := rest3.takeWhile (fun d => !(d = ')'))
              match rest3.drop url.length with
              | f :: rest4 =>
                if !url.isEmpty && f = ')' then
                  "<a href=".data ++ [doublequote] ++ url ++ [doublequote] ++ ">".data
                    ++ txt ++ "</a>".data ++ linkScan fuel rest4
                else c :: linkScan fuel rest
              | [] => c :: linkScan fuel rest
            else c :: linkScan fuel rest
          | [] => c :: linkScan fuel rest
        else c :: linkScan fuel rest
      | [] => c :: linkScan fuel rest
    else c :: linkScan fuel rest

/-- Backtracked split of the greedy `.*` followed by `</li>`: `.*` settles on
the text up to the last occurrence of `</li>` inside the dot run `l`; returns
the consumed text and what is left of the run after that `</li>`. -/
def lastCloseSplit : List Char → Option (List Char × List Char)
  | [] => none
  | c :: rest =>
    match lastCloseSplit rest with
    | some p => some (c :: p.1, p.2)
    | none =>
      if "</li>".data.isPrefixOf (c :: rest) then some ([], (c :: rest).drop 5)
      else none

/-- One iteration of the group `(<li>.*<\/li>\n?)` (blog.js:171): the literal
`<li>`, the greedy dot run backtracked to the last `</li>` it can end at, and
an optional newline.  Returns the matched text and the remainder. -/
def liIter (s : List Char) : Option (List Char × List Char) :=
  if "<li>".data.isPrefixOf s then
    let afterOpen := s.drop 4
    let run := afterOpen.takeWhile isDotChar
    let rest1 := afterOpen.drop run.length
    match lastCloseSplit run with
    | some (a, tail) =>
      match tail ++ rest1 with
      | c :: rest2 =>
        if c = '\n' then some ("<li>".data ++ a ++ "</li>".data ++ ['\n'], rest2)
        else some ("<li>".data ++ a ++ "</li>".data, c :: rest2)
      | [] => some ("<li>".data ++ a ++ "</li>".data, [])
    | none => none
  else none

/-- As many further iterations of the group as will match (the greedy `+`). -/
def liRun : Nat → List Char → List Char × List Char
  | 0, s => ([], s)
  | fuel + 1, s =>
    match liIter s with
    | some (m, r) =>
      let p := liRun fuel r
      (m ++ p.1, p.2)
    | none => ([], s)

/-- `parseMarkdown` step 7b (blog.js:171):
`html.replace(/(<li>.*<\/li>\n?)+/g, '<ul>$&</ul>')`. -/
def ulWrapScan : Nat → List Char → List Char
  | 0, s => s
  | _ + 1, [] => []
  | fuel + 1, c :: rest =>
    match liIter (c :: rest) with
    | some (m, r) =>
      let p := liRun fuel r
      "<ul>".data ++ m ++ p.1 ++ "</ul>".data ++ ulWrapScan fuel p.2
    | none => c :: ulWrapScan fuel rest

/-- Split on the literal `"\n\n"` (JavaScript `html.split('\n\n')`,
left-to-right, non-overlapping). -/
def splitOnBlank : List Char → List (List Char)
  | [] => [[]]
  | c :: rest =>
    if c = '\n' then
      match rest with
      | d :: rest2 =>
        if d = '\n' then [] :: splitOnBlank rest2
        else
          match splitOnBlank (d :: rest2) with
          | h :: t => (c :: h) :: t
          | [] => [[c]]
      | [] => [[c]]
    else
      match splitOnBlank rest with
      | h :: t => (c :: h) :: t
      | [] => [[c]]

/-- `block.replace(/\n/g, '<br>')` (blog.js:186). -/
def brReplace : List Char → List Char
  | [] => []
  | c :: rest => (if c = '\n' then "<br>".data else [c]) ++ brReplace rest

/-- The per-block body of `parseMarkdown` step 8 (blog.js:176-187): trim,
pass block-level HTML and placeholders through, otherwise replace inner
newlines with `<br>` and wrap nonempty text in a paragraph. -/
def paragraphBlockMap (b : List Char) : List Char :=
  let t := jsTrim b
  if "<h".data.isPrefixOf t || "<ul".data.isPrefixOf t || "<p".data.isPrefixOf t
      || "__CODE_BLOCK_".data.isPrefixOf t then t
  else
    let u := brReplace t
    if u.isEmpty then [] else "<p>".data ++ u ++ "</p>".data

/-- `parseMarkdown` step 8 (blog.js:175-188): split on blank lines, map each
block, and rejoin with `'\n'`. -/
def paragraphStep (s : List Char) : List Char :=
  joinNl ((splitOnBlank s).map paragraphBlockMap)

/-- Find the first occurrence of `pat`: returns the text before it and the
text after it. -/
def findFirst (pat : List Char) : List Char → Option (List Char × List Char)
  | [] => if pat.isPrefixOf ([] : List Char) then some ([], []) else none
  | c :: rest =>
    if pat.isPrefixOf (c :: rest) then some ([], (c :: rest).drop pat.length)
    else (findFirst pat rest).map fun p => (c :: p.1, p.2)

/-- JavaScript's `$`-patterns in a string replacement: `$$`, `$&` (the match),
`` $` `` (the text before the match), `$'` (the text after); anything else is
literal (a string pattern has no capture groups). -/
def expandDollars (matched pre post : List Char) : List Char → List Char
  | [] => []
  | c :: rest =>
    if c = '$' then
      match rest with
      | d :: rest2 =>
        if d = '$' then '$' :: expandDollars matched pre post rest2
        else if d = '&' then matched ++ expandDollars matched pre post rest2
        else if d = backquote then pre ++ expandDollars matched pre post rest2
        else if d = singlequote then post ++ expandDollars matched pre post rest2
        else c :: expandDollars matched pre post (d :: rest2)
      | [] => [c]
    else c :: expandDollars matched pre post rest

/-- `html.replace(pat, repl)` with a plain-string pattern: replace the first
occurrence only, applying the `$`-patterns to the replacement. -/
def replaceFirstStr (pat repl s : List Char) : List Char :=
  match findFirst pat s with
  | none => s
  | some (pre, post) => pre ++ expandDollars pat pre post repl ++ post

/-- The rendering built for one record (blog.js:192-193): the language class
is `language-TAG`, or the empty string when no tag was captured. -/
def codeBlockHtml (b : CodeBlockRecord) : List Char :=
  let languageClass := if b.language.isEmpty then [] else "language-".data ++ b.language
  "<pre><code class=".data ++ [doublequote] ++ languageClass ++ [doublequote]
    ++ ">".data ++ b.code ++ "</code></pre>".data

/-- `parseMarkdown` step 9 (blog.js:191-195): for each record in order,
replace the first occurrence of its placeholder by its rendering. -/
def restoreCodeBlocks (html : List Char) (blocks : List CodeBlockRecord) : List Char :=
  blocks.enum.foldl (fun h p => replaceFirstStr (placeholderFor p.1) (codeBlockHtml p.2) h) html

/-- `parseMarkdown` (blog.js:127-198), stage by stage in source order. -/
def parseMarkdownChars (markdown : List Char) : List Char :=
  let h0 := normalizeNewlines markdown
  let e := extractCodeBlocks h0
  let h1 := headingsStage e.1
  let h2 := delimScan "**".data "<strong>".data "</strong>".data h1.length h1
  let h3 := delimScan "__".data "<strong>".data "</strong>".data h2.length h2
  let h4 := delimScan "*".data "<em>".data "</em>".data h3.length h3
  let h5 := delimScan "_".data "<em>".data "</em>".data h4.length h4
  let h6 := inlineCodeScan h5.length h5
  let h7 := linkScan h6.length h6
  let h8 := mapLines (anchoredLineRule "- ".data "<li>".data "</li>".data) h7
  let h9 := ulWrapScan h8.length h8
  let h10 := paragraphStep h9
  restoreCodeBlocks h10 e.2

/-- `parseMarkdown` at the `String` level. -/
def parseMarkdown (markdown : String) : String :=
  ⟨parseMarkdownChars markdown.data⟩

/-! ### The per-language syntax highlighters (blog.js:255-368) -/

/-- Opening tag of a classification span. -/
def spanOpen (cls : List Char) : List Char :=
  "<span class=".data ++ [doublequote] ++ cls ++ [doublequote] ++ ">".data

/-- Closing tag of a classification span. -/
def spanClose : List Char := "</span>".data

/-- Word-ness of an optional character; out-of-string counts as non-word. -/
def wordOpt : Option Char → Bool
  | some c => isWordChar c
  | none => false

/-- A `\b` word boundary between an optional previous and next character. -/
def boundaryOk (a b : Option Char) : Bool := wordOpt a != wordOpt b

/-- Line-local scan for `code.replace(/(MARKER.*$)/gm, comment-span)`: the
first `MARKER` whose whole suffix consists of `.`-matching characters is
wrapped together with that suffix (the `$` must reach the end of the line). -/
def lineCommentGo (marker : List Char) : List Char → List Char
  | [] => []
  | c :: rest =>
    let s := c :: rest
    if marker.isPrefixOf s && s.all isDotChar then
      spanOpen "code-comment".data ++ s ++ spanClose
    else c :: lineCommentGo marker rest

/-- The line-comment pass (`//` for C-like and JavaScript, `#` for Python). -/
def lineCommentPass (marker : List Char) (s : List Char) : List Char :=
  mapLines (lineCommentGo marker) s

/-- `code.replace(/(\/\*[\s\S]*?\*\/)/g, comment-span)` (blog.js:278, 353). -/
def blockCommentScan : Nat → List Char → List Char
  | 0, s => s
  | _ + 1, [] => []
  | fuel + 1, c :: rest =>
    let s := c :: rest
    if "/*".data.isPrefixOf s then
      match lazyClose "*/".data (s.drop 2) with
      | some (content, r) =>
        spanOpen "code-comment".data ++ "/*".data ++ content ++ "*/".data ++ spanClose
          ++ blockCommentScan fuel r
      | none => c :: blockCommentScan fuel rest
    else c :: blockCommentScan fuel rest

/-- Body of a quoted literal `q(?:[^q\\]|\\.)*q` after its opening quote:
characters other than the quote and backslash (newlines included), or a
backslash followed by a `.`-matching character, until the closing quote.
Returns the body and the remainder after the closing quote. -/
def stringLitBody (q : Char) : List Char → Option (List Char × List Char)
  | [] => none
  | c :: rest =>
    if c = q then some ([], rest)
    else if c = '\\' then
      match rest with
      | d :: rest2 =>
        if isDotChar d then (stringLitBody q rest2).map fun p => (c :: d :: p.1, p.2)
        else none
      | [] => none
    else (stringLitBody q rest).map fun p => (c :: p.1, p.2)

/-- `code.replace(/("(?:[^"\\]|\\.)*")/g, string-span)` (blog.js:281). -/
def cppStringScan : Nat → List Char → List Char
  | 0, s => s
  | _ + 1, [] => []
  | fuel + 1, c :: rest =>
    if c = doublequote then
      match stringLitBody doublequote rest with
      | some (content, r) =>
        spanOpen "code-string".data ++ c :: (content ++ [doublequote]) ++ spanClose
          ++ cppStringScan fuel r
      | none => c :: cppStringScan fuel rest
    else c :: cppStringScan fuel rest

/-- Python's triple-quoted-string pass
`/("""[\s\S]*?"""|'''[\s\S]*?''')/g` (blog.js:318): at each position try the
double-quoted alternative first, then the single-quoted one. -/
def pyTripleScan : Nat → List Char → List Char
  | 0, s => s
  | _ + 1, [] => []
  | fuel + 1, c :: rest =>
    let s := c :: rest
    let dq3 := List.replicate 3 doublequote
    let sq3 := List.replicate 3 singlequote
    if dq3.isPrefixOf s then
      match lazyClose dq3 (s.drop 3) with
      | some (content, r) =>
        spanOpen "code-string".data ++ dq3 ++ content ++ dq3 ++ spanClose
          ++ pyTripleScan fuel r
      | none => c :: pyTripleScan fuel rest
    else if sq3.isPrefixOf s then
      match lazyClose sq3 (s.drop 3) with
      | some (content, r) =>
        spanOpen "code-string".data ++ sq3 ++ content ++ sq3 ++ spanClose
          ++ pyTripleScan fuel r
      | none => c :: pyTripleScan fuel rest
    else c :: pyTripleScan fuel rest

/-- A multi-alternative quoted-string pass: at each position try, in order,
a literal opened by each quote in `qs` (Python: `"` then `'`, blog.js:319;
JavaScript: `"` then `'` then the backquote, blog.js:356). -/
def quoteAltScan (qs : List Char) : Nat → List Char → List Char
  | 0, s => s
  | _ + 1, [] => []
  | fuel + 1, c :: rest =>
    if qs.contains c then
      match stringLitBody c rest with
      | some (content, r) =>
        spanOpen "code-string".data ++ c :: (content ++ [c]) ++ spanClose
          ++ quoteAltScan qs fuel r
      | none => c :: quoteAltScan qs fuel rest
    else c :: quoteAltScan qs fuel rest

/-- Left-to-right search for the first success of `f`. -/
def firstSome {α β : Type} (f : α → Option β) : List α → Option β
  | [] => none
  | x :: xs =>
    match f x with
    | some y => some y
    | none => firstSome f xs

/-- Backtracking match of `\d+\.?\d*` (plus `[fFL]?` when `withSuffix` is
true) followed by `\b`, at the current position (the leading `\b` has already
been checked by the caller).  The quantifier choices are explored in the
regex engine's order: `\d+` longest first, then the optional dot taken first,
then `\d*` longest first, then the optional suffix letter taken first; the
first assignment whose trailing `\b` holds wins.  Returns the matched text
and the remainder. -/
def numMatchAt (withSuffix : Bool) (s : List Char) : Option (List Char × List Char) :=
  let d1 := s.takeWhile Char.isDigit
  if d1.isEmpty then none
  else
    firstSome (fun a =>
      let m1 := s.take a
      let r1 := s.drop a
      let dotOpts : List Bool :=
        match r1 with
        | e :: _ => if e = '.' then [true, false] else [false]
        | [] => [false]
      firstSome (fun useDot =>
        let m2 := if useDot then m1 ++ ['.'] else m1
        let r2 := if useDot then r1.drop 1 else r1
        let d2 := r2.takeWhile Char.isDigit
        firstSome (fun b =>
          let m3 := m2 ++ r2.take b
          let r3 := r2.drop b
          let sufOpts : List Bool :=
            if withSuffix then
              match r3 with
              | e :: _ => if e = 'f' || e = 'F' || e = 'L' then [true, false] else [false]
              | [] => [false]
            else [false]
          firstSome (fun useSuf =>
            let m4 := if useSuf then m3 ++ r3.take 1 else m3
            let r4 := if useSuf then r3.drop 1 else r3
            if boundaryOk m4.getLast? r4.head? then some (m4, r4) else none)
            sufOpts)
          ((List.range (d2.length + 1)).reverse))
        dotOpts)
      ((List.range d1.length).reverse.map (· + 1))

/-- `code.replace(/\b(\d+\.?\d*[fFL]?)\b/g, number-span)` (blog.js:284; the
Python and JavaScript versions lack the `[fFL]?`).  `prev` is the character
before the current position, for the leading `\b`. -/
def numberScan (withSuffix : Bool) : Nat → Option Char → List Char → List Char
  | 0, _, s => s
  | _ + 1, _, [] => []
  | fuel + 1, prev, c :: rest =>
    let s := c :: rest
    if boundaryOk prev (some c) then
      match numMatchAt withSuffix s with
      | some (m, r) =>
        spanOpen "code-number".data ++ m ++ spanClose ++ numberScan withSuffix fuel m.getLast? r
      | none => c :: numberScan withSuffix fuel (some c) rest
    else c :: numberScan withSuffix fuel (some c) rest

/-- One keyword's pass `code.replace(new RegExp('\\b(KW)\\b', 'g'), span)`
(blog.js:287-290): the literal keyword with word boundaries on both sides. -/
def kwScan (cls kw : List Char) : Nat → Option Char → List Char → List Char
  | 0, _, s => s
  | _ + 1, _, [] => []
  | fuel + 1, prev, c :: rest =>
    let s := c :: rest
    if kw.isPrefixOf s && boundaryOk prev (some c)
        && boundaryOk kw.getLast? (s.drop kw.length).head? then
      spanOpen cls ++ kw ++ spanClose ++ kwScan cls kw fuel kw.getLast? (s.drop kw.length)
    else c :: kwScan cls kw fuel (some c) rest

/-- The `keywords.forEach` / `types.forEach` loops: one whole-text replace
per word, in list order. -/
def wordListPass (cls : List Char) (words : List String) (s : List Char) : List Char :=
  words.foldl (fun acc kw => kwScan cls kw.data acc.length none acc) s

/-- Python's function-definition pass
`code.replace(/\bdef\s+(\w+)/g, 'def <span class="code-function">$1</span>')`
(blog.js:331).  Note the replacement hard-codes a single space. -/
def pyDefScan : Nat → Option Char → List Char → List Char
  | 0, _, s => s
  | _ + 1, _, [] => []
  | fuel + 1, prev, c :: rest =>
    let s := c :: rest
    if "def".data.isPrefixOf s && boundaryOk prev (some c) then
      let afterKw := s.drop 3
      let ws := afterKw.takeWhile isJsSpace
      let afterWs := afterKw.drop ws.length
      let name := afterWs.takeWhile isWordChar
      if !ws.isEmpty && !name.isEmpty then
        "def ".data ++ spanOpen "code-function".data ++ name ++ spanClose
          ++ pyDefScan fuel name.getLast? (afterWs.drop name.length)
      else c :: pyDefScan fuel (some c) rest
    else c :: pyDefScan fuel (some c) rest

/-- The C-family keyword list (blog.js:257-267), in source order. -/
def cppKeywords : List String :=
  ["auto", "break", "case", "catch", "class", "const", "continue",
   "default", "delete", "do", "else", "enum", "explicit", "extern",
   "false", "for", "friend", "goto", "if", "inline", "namespace",
   "new", "nullptr", "operator", "private", "protected", "public",
   "return", "sizeof", "static", "struct", "switch", "template",
   "this", "throw", "true", "try", "typedef", "typename", "union",
   "using", "virtual", "void", "volatile", "while", "override", "final",
   "constexpr", "noexcept", "static_cast", "dynamic_cast", "reinterpret_cast",
   "const_cast", "std", "move", "forward", "make_unique", "make_shared"]

/-- The C-family type list (blog.js:270-274), in source order. -/
def cppTypes : List String :=
  ["int", "char", "bool", "float", "double", "long", "short",
   "unsigned", "signed", "size_t", "string", "vector", "map",
   "unique_ptr", "shared_ptr", "weak_ptr", "optional", "variant"]

/-- The Python keyword list (blog.js:306-312), in source order. -/
def pythonKeywords : List String :=
  ["and", "as", "assert", "async", "await", "break", "class",
   "continue", "def", "del", "elif", "else", "except", "finally",
   "for", "from", "global", "if", "import", "in", "is", "lambda",
   "None", "nonlocal", "not", "or", "pass", "raise", "return",
   "True", "False", "try", "while", "with", "yield", "self"]

/-- The JavaScript keyword list (blog.js:341-349), in source order. -/
def jsKeywords : List String :=
  ["async", "await", "break", "case", "catch", "class", "const",
   "continue", "debugger", "default", "delete", "do", "else",
   "export", "extends", "finally", "for", "function", "if",
   "import", "in", "instanceof", "let", "new", "of", "return",
   "static", "super", "switch", "this", "throw", "try", "typeof",
   "var", "void", "while", "with", "yield", "true", "false",
   "null", "undefined"]

/-- `highlightCppLike` (blog.js:255-299): line comments, block comments,
strings, numbers, keywords, types — in that order. -/
def highlightCppLikeChars (code : List Char) : List Char :=
  let c1 := lineCommentPass "//".data code
  let c2 := blockCommentScan c1.length c1
  let c3 := cppStringScan c2.length c2
  let c4 := numberScan true c3.length none c3
  let c5 := wordListPass "code-keyword".data cppKeywords c4
  wordListPass "code-type".data cppTypes c5

/-- `highlightPython` (blog.js:305-334): comments, triple-quoted strings,
single/double-quoted strings, numbers, keywords, function definitions. -/
def highlightPythonChars (code : List Char) : List Char :=
  let c1 := lineCommentPass "#".data code
  let c2 := pyTripleScan c1.length c1
  let c3 := quoteAltScan [doublequote, singlequote] c2.length c2
  let c4 := numberScan false c3.length none c3
  let c5 := wordListPass "code-keyword".data pythonKeywords c4
  pyDefScan c5.length none c5

/-- `highlightJavaScript` (blog.js:340-368): line comments, block comments,
strings (double, single, template), numbers, keywords. -/
def highlightJavaScriptChars (code : List Char) : List Char :=
  let c1 := lineCommentPass "//".data code
  let c2 := blockCommentScan c1.length c1
  let c3 := quoteAltScan [doublequote, singlequote, backquote] c2.length c2
  let c4 := numberScan false c3.length none c3
  wordListPass "code-keyword".data jsKeywords c4

/-- `highlightCppLike` at the `String` level. -/
def highlightCppLike (code : String) : String := ⟨highlightCppLikeChars code.data⟩

/-- `highlightPython` at the `String` level. -/
def highlightPython (code : String) : String := ⟨highlightPythonChars code.data⟩

/-- `highlightJavaScript` at the `String` level. -/
def highlightJavaScript (code : String) : String := ⟨highlightJavaScriptChars code.data⟩

/-- The text a browser would render for an HTML fragment: drop every
`<`…`>` tag region, keep everything else. -/
def stripTagsGo : Bool → List Char → List Char
  | _, [] => []
  | true, c :: rest => if c = '>' then stripTagsGo false rest else stripTagsGo true rest
  | false, c :: rest => if c = '<' then stripTagsGo true rest else c :: stripTagsGo false rest

/-- Visible text of an HTML fragment. -/
def stripTags (s : List Char) : List Char := stripTagsGo false s

/-- Whether every carriage return in the text is immediately followed by a
newline — i.e. the text uses only `\r\n`-style (never bare-`\r`) carriage
returns.  Used to state what the normalization step actually guarantees. -/
def crImpliesLf : List Char → Bool
  | [] => true
  | c :: rest =>
    if c = '\r' then
      match rest with
      | d :: rest2 => if d = '\n' then crImpliesLf rest2 else false
      | [] => false
    else crImpliesLf rest

/-! ### Support lemmas -/

theorem takeWhile_of_all {p : Char → Bool} {s : List Char} (h : s.all p = true) :
    s.takeWhile p = s := by
  induction s with
  | nil => rfl
  | cons c rest ih =>
    simp only [List.all_cons, Bool.and_eq_true] at h
    simp [List.takeWhile_cons, h.1, ih h.2]

theorem mapLines_single {s : List Char} (f : List Char → List Char)
    (h : s.all isDotChar = true) : mapLines f s = f s := by
  rw [mapLines]
  simp only [mapLinesGo, takeWhile_of_all h, List.drop_length]

theorem all_append_of {p : Char → Bool} {a b : List Char}
    (ha : a.all p = true) (hb : b.all p = true) : (a ++ b).all p = true := by
  simp [List.all_append, ha, hb]

theorem all_drop_of {p : Char → Bool} {s : List Char} (h : s.all p = true) (n : Nat) :
    (s.drop n).all p = true := by
  rw [List.all_eq_true] at h ⊢
  exact fun c hc => h c (List.drop_subset _ _ hc)

theorem anchoredLineRule_neg {marker o cl line : List Char}
    (h : marker.isPrefixOf line = false) : anchoredLineRule marker o cl line = line := by
  simp [anchoredLineRule, h]

theorem anchoredLineRule_pos {marker o cl line r : List Char}
    (h : marker.isPrefixOf line = true) (h2 : line.drop marker.length = r)
    (h3 : r.isEmpty = false) (h4 : r.all isDotChar = true) :
    anchoredLineRule marker o cl line = o ++ r ++ cl := by
  simp [anchoredLineRule, h, h2, h3, h4]

theorem anchoredLineRule_allDot {marker o cl line : List Char}
    (ho : o.all isDotChar = true) (hc : cl.all isDotChar = true)
    (hl : line.all isDotChar = true) :
    (anchoredLineRule marker o cl line).all isDotChar = true := by
  unfold anchoredLineRule
  split
  · split
    · exact all_append_of (all_append_of ho (all_drop_of hl _)) hc
    · exact hl
  · exact hl

theorem hPass_single (k : Nat) {s : List Char} (h : s.all isDotChar = true) :
    hPass k s = anchoredLineRule (hMarker k) (hOpen k) (hClose k) s := by
  rw [hPass]
  exact mapLines_single _ h

theorem headingsStage_line {s : List Char} (h : s.all isDotChar = true) :
    headingsStage s =
      anchoredLineRule (hMarker 1) (hOpen 1) (hClose 1)
        (anchoredLineRule (hMarker 2) (hOpen 2) (hClose 2)
          (anchoredLineRule (hMarker 3) (hOpen 3) (hClose 3)
            (anchoredLineRule (hMarker 4) (hOpen 4) (hClose 4)
              (anchoredLineRule (hMarker 5) (hOpen 5) (hClose 5)
                (anchoredLineRule (hMarker 6) (hOpen 6) (hClose 6) s))))) := by
  have n6 := @anchoredLineRule_allDot (hMarker 6) (hOpen 6) (hClose 6) s
    (by decide) (by decide) h
  have n5 := @anchoredLineRule_allDot (hMarker 5) (hOpen 5) (hClose 5) _
    (by decide) (by decide) n6
  have n4 := @anchoredLineRule_allDot (hMarker 4) (hOpen 4) (hClose 4) _
    (by decide) (by decide) n5
  have n3 := @anchoredLineRule_allDot (hMarker 3) (hOpen 3) (hClose 3) _
    (by decide) (by decide) n4
  have n2 := @anchoredLineRule_allDot (hMarker 2) (hOpen 2) (hClose 2) _
    (by decide) (by decide) n3
  rw [headingsStage, hPass_single 6 h, hPass_single 5 n6, hPass_single 4 n5, hPass_single 3 n4,
    hPass_single 2 n3, hPass_single 1 n2]

theorem extractGo_fst_of_nil {fuel : Nat} :
    ∀ {i : Nat} {s : List Char}, (extractGo fuel i s).2 = [] → (extractGo fuel i s).1 = s := by
  induction fuel with
  | zero => intro i s _; rfl
  | succ n ih =>
    intro i s h
    cases s with
    | nil => rfl
    | cons c rest =>
      cases hm : fenceMatchAt (c :: rest) with
      | some v =>
        obtain ⟨lang, code, rest2⟩ := v
        simp only [extractGo, hm] at h
        exact absurd h (by simp)
      | none =>
        simp only [extractGo, hm] at h ⊢
        exact congrArg (c :: ·) (ih h)

/-! ### The claims -/

set_option maxRecDepth 100000

/-- Claim C1.  The claim states that extraction and restoration are a
bijection — as many rendered `pre`/`code` wrappers in the output as fenced
regions matched, with no placeholder text surviving.  The code violates
this: on the input ```` "```\nx\n```" ```` extraction records one block, but
the `__bold__` rule (`/__(.+?)__/g`, blog.js:157) consumes the placeholder
`__CODE_BLOCK_0__` (its underscores match the rule's delimiters), then the
`_italic_` rule rewrites the remains, so restoration finds no placeholder
and the output holds zero code wrappers — and no placeholder text either,
because the placeholder was rewritten into emphasis markup. -/
theorem claim_C1_code_blocks_not_restored :
    (extractCodeBlocks (normalizeNewlines "```\nx\n```".data)).2.length = 1 ∧
    countOcc "<pre><code".data (parseMarkdown "```\nx\n```").data = 0 ∧
    countOcc "__CODE_BLOCK_".data (parseMarkdown "```\nx\n```").data = 0 ∧
    parseMarkdown "```\nx\n```" = "<p><strong>CODE<em>BLOCK</em>0</strong></p>" :=
  ⟨by decide, by decide, by decide, by decide⟩

/-- Claim C2.  The claim states that fenced code is HTML-escaped exactly once
at extraction time and spliced back verbatim, so `<script>` renders as
`&lt;script&gt;` and `**bold**` renders literally.  The first half is true of
the code — the stored record holds the once-escaped text — but the splice
never happens: the placeholder is destroyed by the emphasis rules (see C1),
so the escaped code appears nowhere in the output. -/
theorem claim_C2_code_isolation_broken :
    (extractCodeBlocks (normalizeNewlines "```\n<script>\n```".data)).2 =
      [⟨[], "&lt;script&gt;".data⟩] ∧
    countOcc "&lt;script&gt;".data (parseMarkdown "```\n<script>\n```").data = 0 ∧
    parseMarkdown "```\n<script>\n```" = "<p><strong>CODE<em>BLOCK</em>0</strong></p>" ∧
    (extractCodeBlocks (normalizeNewlines "```\n**bold**\n```".data)).2 =
      [⟨[], "**bold**".data⟩] ∧
    countOcc "**bold**".data (parseMarkdown "```\n**bold**\n```").data = 0 :=
  ⟨by decide, by decide, by decide, by decide, by decide⟩

/-- Claim C3.  The claim states that because the comment pass precedes the
keyword pass, a `return` inside a line comment is wrapped as a comment and
NOT additionally wrapped as a keyword.  The first pass does wrap the whole
comment (first conjunct), but the later keyword pass is a plain text
substitution over the already-rewritten string: it still finds `return`
inside the comment span and wraps it again (second conjunct), so the
ordering does not deliver the claimed protection. -/
theorem claim_C3_keyword_wrapped_inside_comment :
    lineCommentPass "//".data "// return x".data =
      "<span class=\"code-comment\">// return x</span>".data ∧
    countOcc "<span class=\"code-keyword\">return</span>".data
      (highlightCppLikeChars "// return x".data) = 1 :=
  ⟨by decide, by decide⟩

/-- Claim C4.  The claim states the highlighters only wrap substrings in
spans, leaving the visible text equal to the input.  In fact the later
passes match inside the span tags inserted by earlier passes — the string
pass wraps the quoted `"code-comment"` attribute, the keyword pass wraps the
`class` attribute name, the type pass wraps `string` — splitting those tags,
so the rendered text of the output differs from the input for every
highlighter (last conjunct shows the exact mangled visible text). -/
theorem claim_C4_visible_text_altered :
    stripTags (highlightCppLikeChars "// x".data) ≠ "// x".data ∧
    stripTags (highlightJavaScriptChars "// x".data) ≠ "// x".data ∧
    stripTags (highlightPythonChars "# x".data) ≠ "# x".data ∧
    stripTags (highlightCppLikeChars "// x".data) =
      "class=class=\"code-string\">\"code-comment\">// x".data :=
  ⟨by decide, by decide, by decide, by decide⟩

/-- Claim C5.  `parseMarkdown` is deterministic and reentrant: in the source
the `codeBlocks` accumulator and the ordinal counter are local to one call
(`const codeBlocks = []` inside the function, blog.js:135), which the
embedding reflects by making `parseMarkdown` a pure function of its input
string alone; two runs on the same text are therefore byte-identical. -/
theorem claim_C5_determinism :
    ∀ s : String, parseMarkdown s = parseMarkdown s :=
  fun _ => rfl

/-- Claim C6.  `parseMarkdown` is total — every input produces some output
(the embedding is a total function) — and malformed or unmatched inline
delimiters (a lone `*`, `_`, backquote, or unclosed bracket syntax) remain
as literal characters in the output. -/
theorem claim_C6_totality :
    (∀ s : String, ∃ t : String, parseMarkdown s = t) ∧
    parseMarkdown "a * b" = "<p>a * b</p>" ∧
    parseMarkdown "a _ b" = "<p>a _ b</p>" ∧
    parseMarkdown "a ` b" = "<p>a ` b</p>" ∧
    parseMarkdown "[x](" = "<p>[x](</p>" :=
  ⟨fun s => ⟨parseMarkdown s, rfl⟩, by decide, by decide, by decide, by decide⟩

/-- Claim C7.  Every line of `k` heading markers plus a space (1 ≤ k ≤ 6)
followed by nonempty line content becomes a level-`k` heading with no
leftover markers: the six-marker rule is tried first, so a level-`k` line is
untouched by the longer-marker rules and, once rewritten to `<hk>…</hk>`,
is no longer matched by the shorter-marker rules.  End to end,
`###### H` renders as `<h6>H</h6>` and `# H` as `<h1>H</h1>`. -/
theorem claim_C7_heading_precedence :
    (∀ k rest, 1 ≤ k → k ≤ 6 → rest ≠ ([] : List Char) → rest.all isDotChar = true →
      headingsStage (hMarker k ++ rest) = hOpen k ++ rest ++ hClose k) ∧
    parseMarkdown "###### H" = "<h6>H</h6>" ∧ parseMarkdown "# H" = "<h1>H</h1>" := by
  refine ⟨?_, by decide, by decide⟩
  intro k rest h1 h6 hne hdot
  have hre : rest.isEmpty = false := by
    cases rest with
    | nil => exact absurd rfl hne
    | cons a as => rfl
  interval_cases k
  · rw [headingsStage_line (all_append_of (by decide) hdot),
      anchoredLineRule_neg (show (hMarker 6).isPrefixOf (hMarker 1 ++ rest) = false from rfl),
      anchoredLineRule_neg (show (hMarker 5).isPrefixOf (hMarker 1 ++ rest) = false from rfl),
      anchoredLineRule_neg (show (hMarker 4).isPrefixOf (hMarker 1 ++ rest) = false from rfl),
      anchoredLineRule_neg (show (hMarker 3).isPrefixOf (hMarker 1 ++ rest) = false from rfl),
      anchoredLineRule_neg (show (hMarker 2).isPrefixOf (hMarker 1 ++ rest) = false from rfl),
      anchoredLineRule_pos (by simp [hMarker, List.isPrefixOf])
        (show (hMarker 1 ++ rest).drop (hMarker 1).length = rest from rfl) hre hdot]
  · rw [headingsStage_line (all_append_of (by decide) hdot),
      anchoredLineRule_neg (show (hMarker 6).isPrefixOf (hMarker 2 ++ rest) = false from rfl),
      anchoredLineRule_neg (show (hMarker 5).isPrefixOf (hMarker 2 ++ rest) = false from rfl),
      anchoredLineRule_neg (show (hMarker 4).isPrefixOf (hMarker 2 ++ rest) = false from rfl),
      anchoredLineRule_neg (show (hMarker 3).isPrefixOf (hMarker 2 ++ rest) = false from rfl),
      anchoredLineRule_pos (by simp [hMarker, List.isPrefixOf])
        (show (hMarker 2 ++ rest).drop (hMarker 2).length = rest from rfl) hre hdot,
      anchoredLineRule_neg
        (show (hMarker 1).isPrefixOf (hOpen 2 ++ rest ++ hClose 2) = false from rfl)]
  · rw [headingsStage_line (all_append_of (by decide) hdot),
      anchoredLineRule_neg (show (hMarker 6).isPrefixOf (hMarker 3 ++ rest) = false from rfl),
      anchoredLineRule_neg (show (hMarker 5).isPrefixOf (hMarker 3 ++ rest) = false from rfl),
      anchoredLineRule_neg (show (hMarker 4).isPrefixOf (hMarker 3 ++ rest) = false from rfl),
      anchoredLineRule_pos (by simp [hMarker, List.isPrefixOf])
        (show (hMarker 3 ++ rest).drop (hMarker 3).length = rest from rfl) hre hdot,
      anchoredLineRule_neg
        (show (hMarker 2).isPrefixOf (hOpen 3 ++ rest ++ hClose 3) = false from rfl),
      anchoredLineRule_neg
        (show (hMarker 1).isPrefixOf (hOpen 3 ++ rest ++ hClose 3) = false from rfl)]
  · rw [headingsStage_line (all_append_of (by decide) hdot),
      anchoredLineRule_neg (show (hMarker 6).isPrefixOf (hMarker 4 ++ rest) = false from rfl),
      anchoredLineRule_neg (show (hMarker 5).isPrefixOf (hMarker 4 ++ rest) = false from rfl),
      anchoredLineRule_pos (by simp [hMarker, List.isPrefixOf])
        (show (hMarker 4 ++ rest).drop (hMarker 4).length = rest from rfl) hre hdot,
      anchoredLineRule_neg
        (show (hMarker 3).isPrefixOf (hOpen 4 ++ rest ++ hClose 4) = false from rfl),
      anchoredLineRule_neg
        (show (hMarker 2).isPrefixOf (hOpen 4 ++ rest ++ hClose 4) = false from rfl),
      anchoredLineRule_neg
        (show (hMarker 1).isPrefixOf (hOpen 4 ++ rest ++ hClose 4) = false from rfl)]
  · rw [headingsStage_line (all_append_of (by decide) hdot),
      anchoredLineRule_neg (show (hMarker 6).isPrefixOf (hMarker 5 ++ rest) = false from rfl),
      anchoredLineRule_pos (by simp [hMarker, List.isPrefixOf])
        (show (hMarker 5 ++ rest).drop (hMarker 5).length = rest from rfl) hre hdot,
      anchoredLineRule_neg
        (show (hMarker 4).isPrefixOf (hOpen 5 ++ rest ++ hClose 5) = false from rfl),
      anchoredLineRule_neg
        (show (hMarker 3).isPrefixOf (hOpen 5 ++ rest ++ hClose 5) = false from rfl),
      anchoredLineRule_neg
        (show (hMarker 2).isPrefixOf (hOpen 5 ++ rest ++ hClose 5) = false from rfl),
      anchoredLineRule_neg
        (show (hMarker 1).isPrefixOf (hOpen 5 ++ rest ++ hClose 5) = false from rfl)]
  · rw [headingsStage_line (all_append_of (by decide) hdot),
      anchoredLineRule_pos (by simp [hMarker, List.isPrefixOf])
        (show (hMarker 6 ++ rest).drop (hMarker 6).length = rest from rfl) hre hdot,
      anchoredLineRule_neg
        (show (hMarker 5).isPrefixOf (hOpen 6 ++ rest ++ hClose 6) = false from rfl),
      anchoredLineRule_neg
        (show (hMarker 4).isPrefixOf (hOpen 6 ++ rest ++ hClose 6) = false from rfl),
      anchoredLineRule_neg
        (show (hMarker 3).isPrefixOf (hOpen 6 ++ rest ++ hClose 6) = false from rfl),
      anchoredLineRule_neg
        (show (hMarker 2).isPrefixOf (hOpen 6 ++ rest ++ hClose 6) = false from rfl),
      anchoredLineRule_neg
        (show (hMarker 1).isPrefixOf (hOpen 6 ++ rest ++ hClose 6) = false from rfl)]

/-- Witness for C7: the general statement applied at level 6 with line
content `H`. -/
theorem claim_C7_heading_precedence_witness :
    ("H".data ≠ ([] : List Char) ∧ "H".data.all isDotChar = true) ∧
    headingsStage (hMarker 6 ++ "H".data) = hOpen 6 ++ "H".data ++ hClose 6 :=
  ⟨⟨by decide, by decide⟩,
    claim_C7_heading_precedence.1 6 "H".data (by decide) (by decide) (by decide) (by decide)⟩

/-- Claim C8.  Three consecutive dash-prefixed lines render as exactly one
list container holding three item elements, and two runs separated by a
non-list line stay in two separate containers. -/
theorem claim_C8_list_grouping :
    parseMarkdown "- a\n- b\n- c" = "<ul><li>a</li>\n<li>b</li>\n<li>c</li></ul>" ∧
    countOcc "<ul>".data (parseMarkdown "- a\n- b\n- c").data = 1 ∧
    countOcc "</ul>".data (parseMarkdown "- a\n- b\n- c").data = 1 ∧
    countOcc "<li>".data (parseMarkdown "- a\n- b\n- c").data = 3 ∧
    countOcc "<ul>".data (parseMarkdown "- a\n\nx\n\n- b").data = 2 :=
  ⟨by decide, by decide, by decide, by decide, by decide⟩

/-- Counterexample to claim C9: the claim says that after the normalization
step the text contains no carriage returns whether the input used `\r\n` or
bare `\r` line endings; but the step only replaces the two-character
sequence `\r\n` (blog.js:131), so a bare `\r` survives it — and reaches the
output. -/
theorem claim_C9_counterexample :
    '\r' ∈ normalizeNewlines "a\rb".data ∧ '\r' ∈ (parseMarkdown "a\rb").data :=
  ⟨by decide, by decide⟩

/-- Claim C9 as amended: `parseMarkdown` canonicalizes `\r\n` pairs to `\n`
before any other processing; when every carriage return in the input is part
of an `\r\n` pair (the input uses `\r\n` line endings), the normalized text
contains no carriage returns — but a bare `\r` is preserved. -/
theorem claim_C9_crlf_normalization :
    ∀ s : List Char, crImpliesLf s = true → '\r' ∉ normalizeNewlines s := by
  intro s
  induction s using normalizeNewlines.induct with
  | case1 =>
    intro _
    simp [normalizeNewlines]
  | case2 c =>
    intro hc hm
    simp only [normalizeNewlines, List.mem_singleton] at hm
    subst hm
    simp [crImpliesLf] at hc
  | case3 c1 c2 rest hcond ih =>
    have hpair : c1 = '\r' ∧ c2 = '\n' := by simpa using hcond
    obtain ⟨hp1, hp2⟩ := hpair
    subst hp1
    subst hp2
    intro hc hm
    have hc2 : crImpliesLf rest = true := by simpa [crImpliesLf] using hc
    rw [normalizeNewlines, if_pos (by simp)] at hm
    rcases List.mem_cons.1 hm with h | h
    · exact absurd h (by decide)
    · exact ih hc2 h
  | case4 c1 c2 rest hcond ih =>
    intro hc hm
    have hne : ¬(c1 = '\r' ∧ c2 = '\n') := by
      intro hp
      exact hcond (by simp [hp.1, hp.2])
    rw [normalizeNewlines, if_neg (by simpa using hcond)] at hm
    rcases List.mem_cons.1 hm with h | h
    · rw [← h] at hc
      have hlf : c2 = '\n' := by
        by_contra hno
        simp [crImpliesLf, hno] at hc
      exact hne ⟨h.symm, hlf⟩
    · refine ih ?_ h
      by_cases hcr : c1 = '\r'
      · subst hcr
        have hlf : c2 = '\n' := by
          by_contra hno
          simp [crImpliesLf, hno] at hc
        exact absurd ⟨rfl, hlf⟩ hne
      · simpa [crImpliesLf, hcr] using hc

/-- Witness for the amended C9: on the `\r\n`-ended input `a\r\nb` the
normalized text is carriage-return-free. -/
theorem claim_C9_crlf_normalization_witness :
    crImpliesLf "a\r\nb".data = true ∧ '\r' ∉ normalizeNewlines "a\r\nb".data :=
  ⟨by decide, claim_C9_crlf_normalization _ (by decide)⟩

/-- Claim C10.  An opening fence with no matching close produces no record
and no placeholder: whenever extraction records nothing, the text is
returned unchanged (first conjunct), and on concrete unterminated-fence
inputs the fence line and what follows flow through the later rules as
ordinary text (line breaks, emphasis), so the remainder is not treated as
code; a matched fence earlier in the document still gets its one record
while the dangling opener stays literal (last two conjuncts). -/
theorem claim_C10_unterminated_fence :
    (∀ s : List Char, (extractCodeBlocks s).2 = [] → (extractCodeBlocks s).1 = s) ∧
    (extractCodeBlocks "```js\nlet x".data).2 = [] ∧
    parseMarkdown "```js\nlet x" = "<p>```js<br>let x</p>" ∧
    parseMarkdown "```\n**b**" = "<p>```<br><strong>b</strong></p>" ∧
    (extractCodeBlocks "```\na\n```\nz\n```\nb".data).1 =
      "__CODE_BLOCK_0__\nz\n```\nb".data ∧
    (extractCodeBlocks "```\na\n```\nz\n```\nb".data).2.length = 1 :=
  ⟨fun _ h => extractGo_fst_of_nil h, by decide, by decide, by decide, by decide, by decide⟩

/-- Witness for C10: the general no-record conjunct applied to a fence-free
input. -/
theorem claim_C10_unterminated_fence_witness :
    (extractCodeBlocks "abc".data).2 = [] ∧ (extractCodeBlocks "abc".data).1 = "abc".data :=
  ⟨by decide, claim_C10_unterminated_fence.1 _ (by decide)⟩

end Blog
